import Mathlib

/-
Verification of the physics core of the "black cat" yarn-ball toy.

The repository contains several iterations of the same toy:
  * an impulse-based rigid-body variant (src/game.js, first document, and
    src/unnamed/part_001 which couples it to an IK rope and a spool model);
  * a Verlet "disk" variant with a wound particle rope
    (src/game.js, second document);
  * earlier prototypes (src/unnamed/part_000, src/unnamed/part_002).

The impulse-based rigid-body tick (gravity, integration, damping, boundary
positional correction and impulse resolution) uses no square roots, so it is
embedded exactly over ℚ in namespace `Impulse`.  The disk variant and the IK
rope solver use Math.hypot, so they are embedded over ℝ with Real.sqrt in
namespaces `Disk` and `IK`.  JavaScript number literals such as 0.996 are
exact decimal fractions and are carried exactly.
-/

set_option maxHeartbeats 1000000

/-- JS utility shared by all variants:
`const clamp = (v, a, b) => Math.max(a, Math.min(b, v));` -/
def clamp {α : Type} [LinearOrder α] (v a b : α) : α := max a (min b v)

/-- Time-step computation, identical in all variants:
`const dt = clamp((now - last) / 1000, 0, 0.033);` -/
def computeDt (now last : ℚ) : ℚ := clamp ((now - last) / 1000) 0 0.033

/-- Plain n-fold application, modelling a JS `for` loop running a
state-to-state body a fixed number of times. -/
def iterateN {α : Type} (f : α → α) : ℕ → α → α
  | 0, a => a
  | k + 1, a => f (iterateN f k a)

namespace Impulse

/-- `const grav = 1200;` (px/s²) -/
def grav : ℚ := 1200

/-- `const rest = 0.72;` coefficient of restitution (floor/ceiling) -/
def rest : ℚ := 0.72

/-- `const wallRest = 0.6;` side restitution -/
def wallRest : ℚ := 0.6

/-- `const muGround = 0.6;` Coulomb friction (floor/ceiling) -/
def muGround : ℚ := 0.6

/-- `const muWall = 0.5;` Coulomb friction (walls) -/
def muWall : ℚ := 0.5

/-- `const radius = 40;` yarn radius in px -/
def radius : ℚ := 40

/-- `const mass = 1;` -/
def mass : ℚ := 1

/-- `const inertia = (2 / 5) * mass * radius * radius;` -/
def inertia : ℚ := (2 / 5) * mass * radius * radius

/-- `const air = 0.996;` per-tick velocity/spin damping inside `step` -/
def air : ℚ := 0.996

/-- The rigid ball state of the impulse variant (`const ball = {...}`):
position, velocity, orientation and angular velocity. -/
structure Ball where
  x : ℚ
  y : ℚ
  vx : ℚ
  vy : ℚ
  angle : ℚ
  spin : ℚ

/-- `const cross2 = (ax, ay, bx, by) => ax * by - ay * bx;`
(the last argument is renamed because `by` is a Lean keyword). -/
def cross2 (ax ay bx byy : ℚ) : ℚ := ax * byy - ay * bx

/-- `contactVelocity(vx, vy, omega, rx, ry)`: velocity of the contact point,
`v + ω × r`. -/
def contactVelocity (vx vy omega rx ry : ℚ) : ℚ × ℚ :=
  (vx + (-omega * ry), vy + omega * rx)

/-- `applyImpulseAtPoint(Jx, Jy, rx, ry)`: linear change `J/mass` and angular
change `(r × J)/inertia`. -/
def applyImpulseAtPoint (Jx Jy rx ry : ℚ) (b : Ball) : Ball :=
  { b with
    vx := b.vx + Jx / mass
    vy := b.vy + Jy / mass
    spin := b.spin + cross2 rx ry Jx Jy / inertia }

/-- Normal component of the contact-point velocity inside
`resolvePlaneContact` (`vn = cv.cx * nx + cv.cy * ny` with
`r = -n * radius`). -/
def planeVn (nx ny : ℚ) (b : Ball) : ℚ :=
  let rx := -nx * radius
  let ry := -ny * radius
  let cv := contactVelocity b.vx b.vy b.spin rx ry
  cv.1 * nx + cv.2 * ny

/-- Normal effective mass `kN = 1/(1/mass + (r×n)²/inertia)`. -/
def planeKN (nx ny : ℚ) : ℚ :=
  let rx := -nx * radius
  let ry := -ny * radius
  let rn := cross2 rx ry nx ny
  1 / (1 / mass + rn * rn / inertia)

/-- Tangential effective mass `kT = 1/(1/mass + (r×t)²/inertia)` with
`t = (-ny, nx)`. -/
def planeKT (nx ny : ℚ) : ℚ :=
  let rx := -nx * radius
  let ry := -ny * radius
  let rt := cross2 rx ry (-ny) nx
  1 / (1 / mass + rt * rt / inertia)

/-- Normal impulse scalar `Jn = -(1 + e) * vn * kN`. -/
def planeJn (nx ny e : ℚ) (b : Ball) : ℚ :=
  -(1 + e) * planeVn nx ny b * planeKN nx ny

/-- The ball after the normal impulse `Jn * n` is applied at `r = -n*radius`. -/
def afterNormalImpulse (nx ny e : ℚ) (b : Ball) : Ball :=
  applyImpulseAtPoint (planeJn nx ny e b * nx) (planeJn nx ny e b * ny)
    (-nx * radius) (-ny * radius) b

/-- Tangential contact velocity recomputed after the normal impulse
(`vt2 = cv2.cx * tx + cv2.cy * ty`). -/
def planeVt2 (nx ny e : ℚ) (b : Ball) : ℚ :=
  let b2 := afterNormalImpulse nx ny e b
  let rx := -nx * radius
  let ry := -ny * radius
  let cv2 := contactVelocity b2.vx b2.vy b2.spin rx ry
  cv2.1 * (-ny) + cv2.2 * nx

/-- Friction impulse: the slip-cancelling `Jt = -vt2 * kT` clamped to the
Coulomb cone `[-mu*|Jn|, mu*|Jn|]`. -/
def planeJt (nx ny e mu : ℚ) (b : Ball) : ℚ :=
  clamp (-planeVt2 nx ny e b * planeKT nx ny)
    (-(mu * |planeJn nx ny e b|)) (mu * |planeJn nx ny e b|)

/-- `resolvePlaneContact(nx, ny, px, py, e, mu)`: skip if the contact-point
normal velocity is separating (≥ 0), otherwise apply the normal impulse and
then the clamped friction impulse.  The `px, py` parameters are unused in the
source as well. -/
def resolvePlaneContact (nx ny px py e mu : ℚ) (b : Ball) : Ball :=
  if 0 ≤ planeVn nx ny b then b
  else
    applyImpulseAtPoint (planeJt nx ny e mu b * (-ny)) (planeJt nx ny e mu b * nx)
      (-nx * radius) (-ny * radius) (afterNormalImpulse nx ny e b)

/-- `positionalCorrection(nx, ny, penetration)`: push the centre out along the
normal by `max(0, penetration - slop) * percent` (slop = 0.2, percent = 0.8). -/
def positionalCorrection (nx ny penetration : ℚ) (b : Ball) : Ball :=
  if penetration ≤ 0 then b
  else
    let corr := max 0 (penetration - 0.2) * 0.8
    { b with x := b.x + nx * corr, y := b.y + ny * corr }

/-- Gravity, integration and air damping, exactly the first phase of `step`:
`vy += grav*dt; x += vx*dt; y += vy*dt; angle += spin*dt;`
then `vx *= air; vy *= air; spin *= air`. -/
def integratePhase (dt : ℚ) (b : Ball) : Ball :=
  let vy1 := b.vy + grav * dt
  { x := b.x + b.vx * dt
    y := b.y + vy1 * dt
    vx := b.vx * air
    vy := vy1 * air
    angle := b.angle + b.spin * dt
    spin := b.spin * air }

/-- Floor block of `step`: `if (ball.y + radius > h) { positionalCorrection(0,-1,pen); resolvePlaneContact(0,-1,...,rest,muGround); }` -/
def floorContact (h : ℚ) (b : Ball) : Ball :=
  if h < b.y + radius then
    let b1 := positionalCorrection 0 (-1) (b.y + radius - h) b
    resolvePlaneContact 0 (-1) b1.x b1.y rest muGround b1
  else b

/-- Ceiling block of `step` (`wallRest`, `muGround`). -/
def ceilingContact (b : Ball) : Ball :=
  if b.y - radius < 0 then
    let b1 := positionalCorrection 0 1 (radius - b.y) b
    resolvePlaneContact 0 1 b1.x b1.y wallRest muGround b1
  else b

/-- Left-wall block of `step` (`wallRest`, `muWall`). -/
def leftWallContact (b : Ball) : Ball :=
  if b.x - radius < 0 then
    let b1 := positionalCorrection 1 0 (radius - b.x) b
    resolvePlaneContact 1 0 b1.x b1.y wallRest muWall b1
  else b

/-- Right-wall block of `step` (`wallRest`, `muWall`). -/
def rightWallContact (w : ℚ) (b : Ball) : Ball :=
  if w < b.x + radius then
    let b1 := positionalCorrection (-1) 0 (b.x + radius - w) b
    resolvePlaneContact (-1) 0 b1.x b1.y wallRest muWall b1
  else b

/-- The physics phases of one tick named by claim C1: gravity integration,
damping, then the four boundary blocks in source order (floor, ceiling, left
wall, right wall).  The pointer block and the off-screen reset are the
subsequent, separate phases of `step`. -/
def stepPhysics (w h dt : ℚ) (b : Ball) : Ball :=
  rightWallContact w (leftWallContact (ceilingContact (floorContact h (integratePhase dt b))))

/-- Total kinetic + potential energy of the body,
`½·m·|v|² + ½·I·spin² + m·g·height`, with height measured upward from the
floor line `y = h` (the canvas y axis points down). -/
def energy (h : ℚ) (b : Ball) : ℚ :=
  mass * (b.vx ^ 2 + b.vy ^ 2) / 2 + inertia * b.spin ^ 2 / 2 + mass * grav * (h - b.y)

end Impulse

noncomputable section

namespace Disk

/-- `const grav = 1600;` (px/s², disk variant) -/
def grav : ℝ := 1600

/-- `const rest = 0.55;` restitution for disk collisions -/
def rest : ℝ := 0.55

/-- `const fricGround = 0.015;` rolling friction per frame when grounded -/
def fricGround : ℝ := 0.015

/-- `const fricAir = 0.997;` air drag for the disk -/
def fricAir : ℝ := 0.997

/-- `const wallRest = 0.5;` -/
def wallRest : ℝ := 0.5

/-- `const radius = 38;` disk radius (px) -/
def radius : ℝ := 38

/-- `const TOTAL_POINTS = 500;` total rope particles, including wound ones -/
def TOTAL_POINTS : ℕ := 500

/-- The Verlet disk state (`const ball = {x, y, px, py, angle, pang, grounded}`).
`pang` is stored but never updated by the source. -/
structure Ball where
  x : ℝ
  y : ℝ
  px : ℝ
  py : ℝ
  angle : ℝ
  pang : ℝ
  grounded : Bool

/-- Verlet integration part of `integrateDisk`: implicit velocity
`(x - px, y - py)`, air drag, gravity in position units, `grounded = false`. -/
def diskIntegrate (dt : ℝ) (b : Ball) : Ball :=
  let vx := b.x - b.px
  let vy := b.y - b.py
  { b with
    px := b.x
    py := b.y
    x := b.x + vx * fricAir
    y := b.y + vy * fricAir + grav * dt * dt
    grounded := false }

/-- Floor clamp of `integrateDisk`: `ball.y = h - radius;` then reflect the
previous-position offset with restitution and set `grounded`. -/
def diskFloor (h : ℝ) (b : Ball) : Ball :=
  if h < b.y + radius then
    let y2 := h - radius
    { b with y := y2, py := y2 + (b.py - y2) * (-rest), grounded := true }
  else b

/-- Ceiling clamp of `integrateDisk` (restitution `wallRest`). -/
def diskCeiling (b : Ball) : Ball :=
  if b.y - radius < 0 then
    let y2 := radius
    { b with y := y2, py := y2 + (b.py - y2) * (-wallRest) }
  else b

/-- Left-wall clamp of `integrateDisk`. -/
def diskLeft (b : Ball) : Ball :=
  if b.x - radius < 0 then
    let x2 := radius
    { b with x := x2, px := x2 + (b.px - x2) * (-wallRest) }
  else b

/-- Right-wall clamp of `integrateDisk`. -/
def diskRight (w : ℝ) (b : Ball) : Ball :=
  if w < b.x + radius then
    let x2 := w - radius
    { b with x := x2, px := x2 + (b.px - x2) * (-wallRest) }
  else b

/-- Rolling block of `integrateDisk`: when grounded, advance the angle by the
horizontal travel over the radius and damp horizontal motion through the
previous position. -/
def diskRoll (b : Ball) : Ball :=
  if b.grounded then
    let dx := b.x - b.px
    { b with angle := b.angle + dx / radius, px := b.x - dx * (1 - fricGround) }
  else b

/-- `integrateDisk(dt)`: Verlet integration followed by the four boundary
clamps (floor, ceiling, left, right, in source order) and the rolling
friction block. -/
def integrateDisk (w h dt : ℝ) (b : Ball) : Ball :=
  diskRoll (diskRight w (diskLeft (diskCeiling (diskFloor h (diskIntegrate dt b)))))

/-- `let freeCount` promotion loop, `maybeFreeNext(bySegments)`: promote one
particle per iteration, but stop for good once
`freeCount >= TOTAL_POINTS - 1` (one particle always stays wound for the
exit point). -/
def maybeFreeNext (fc : ℕ) : ℕ → ℕ
  | 0 => fc
  | k + 1 => if TOTAL_POINTS - 1 ≤ fc then fc else maybeFreeNext (fc + 1) k

/-- The pointer sample consumed by the disk variant (`const mouse = {x, y, down}`). -/
structure Mouse where
  x : ℝ
  y : ℝ
  down : Bool

/-- `let lastMouse = {x, y, t}`: the previous pointer sample used for
finite-difference pointer velocity. -/
structure LastMouse where
  x : ℝ
  y : ℝ
  t : ℝ

/-- The module-level state mutated by `handleMouseImpulses`. -/
structure SimState where
  ball : Ball
  lastMouse : LastMouse
  hitCooldown : ℝ
  freeCount : ℕ

/-- `handleMouseImpulses(dt, now)`: decrement the cooldown, derive pointer
velocity, store the new last-pointer sample; then return unless the pointer
is down, the cooldown has fully elapsed and the pointer is within
`radius + 3` of the disk centre; otherwise modify the disk's
previous-position velocity by the impulse, promote `segs` particles and
reset the cooldown to 0.10 s. -/
def handleMouseImpulses (dt now : ℝ) (mouse : Mouse) (s : SimState) : SimState :=
  let cd := max 0 (s.hitCooldown - dt)
  let mdT := max 1e-3 ((now - s.lastMouse.t) / 1000)
  let mvx := (mouse.x - s.lastMouse.x) / mdT
  let mvy := (mouse.y - s.lastMouse.y) / mdT
  let dx := mouse.x - s.ball.x
  let dy := mouse.y - s.ball.y
  let dist := Real.sqrt (dx ^ 2 + dy ^ 2)
  let s1 := { s with hitCooldown := cd, lastMouse := ⟨mouse.x, mouse.y, now⟩ }
  if mouse.down = false then s1
  else if 0 < cd then s1
  else if radius + 3 < dist then s1
  else
    let nx := dx / (if dist = 0 then 1 else dist)
    let ny := dy / (if dist = 0 then 1 else dist)
    let approach := -(nx * mvx + ny * mvy)
    let base := 520 + clamp (approach * 0.7) (-250) 900
    let Jx := -nx * base
    let Jy := -ny * base - 150
    let vx := (s.ball.x - s.ball.px) + Jx * (1 / 60)
    let vy := (s.ball.y - s.ball.py) + Jy * (1 / 60)
    let Jmag := Real.sqrt (Jx ^ 2 + Jy ^ 2)
    let segs := (clamp ⌊Jmag / 25⌋ 1 8).toNat
    { s1 with
      ball := { s.ball with px := s.ball.x - vx, py := s.ball.y - vy }
      freeCount := maybeFreeNext s1.freeCount segs
      hitCooldown := 0.10 }

end Disk

namespace IK

/-- `const grav = 1200;` (px/s², part_001) -/
def grav : ℝ := 1200

/-- `let SEG_LEN = 10;` target segment length used in constraints.  The only
reassignment in the source is `SEG_LEN = clamp(SEG_LEN, SEG_LEN_MIN, SEG_LEN_MAX)`
with bounds 6 and 14, which leaves the value 10 unchanged, so it is a
constant throughout execution. -/
def SEG_LEN : ℝ := 10

/-- `const ROPE_ITERS = 5;` constraint iterations -/
def ROPE_ITERS : ℕ := 5

/-- `const ROPE_DAMP = 0.985;` per-step velocity damping -/
def ROPE_DAMP : ℝ := 0.985

/-- `const v_max_feed = 800;` px/s cap for the spool feed rate -/
def v_max_feed : ℝ := 800

/-- `const L_total = 60 * pxPerMeter;` total yarn length in px (60 m at 120 px/m) -/
def L_total : ℝ := 60 * 120

/-- A rope node `{x, y, px, py}`: position and previous position. -/
structure Node where
  x : ℝ
  y : ℝ
  px : ℝ
  py : ℝ

/-- Euclidean distance between the positions of two nodes. -/
def nodeDist (a b : Node) : ℝ :=
  Real.sqrt ((b.x - a.x) ^ 2 + (b.y - a.y) ^ 2)

/-- One placement step shared by both FABRIK passes: move the point at `q` to
lie `SEG_LEN` away from the fixed point `p` along the direction `q - p`,
with the JS zero-distance guard `Math.hypot(...) || 1e-6`. -/
def placeFrom (p q : ℝ × ℝ) : ℝ × ℝ :=
  let dx := q.1 - p.1
  let dy := q.2 - p.2
  let d0 := Real.sqrt (dx ^ 2 + dy ^ 2)
  let d := if d0 = 0 then 1e-6 else d0
  (p.1 + dx * (SEG_LEN / d), p.2 + dy * (SEG_LEN / d))

/-- Walk along the remaining nodes, repositioning each exactly one segment
length from its (already repositioned) neighbour: the common inner loop of
both reach passes. -/
def reachFwdList (p : ℝ × ℝ) : List Node → List Node
  | [] => []
  | b :: rest =>
    let q := placeFrom p (b.x, b.y)
    { b with x := q.1, y := q.2 } :: reachFwdList q rest

/-- Forward reach of `satisfyRope`: fix the tail at its target and pull the
chain toward the head (the loop `for (let i = ti - 1; i >= 0; i--)`),
expressed by reversing the list. -/
def forwardPass (tgt : ℝ × ℝ) (ns : List Node) : List Node :=
  match ns.reverse with
  | [] => []
  | tl :: rest => (({ tl with x := tgt.1, y := tgt.2 }) :: reachFwdList tgt rest).reverse

/-- Backward reach of `satisfyRope`: re-pin the head (position only, as in the
loop body) and push the chain toward the tail. -/
def backwardPass (anchor : ℝ × ℝ) (ns : List Node) : List Node :=
  match ns with
  | [] => []
  | hd :: rest => ({ hd with x := anchor.1, y := anchor.2 }) :: reachFwdList anchor rest

/-- The hard pin of node 0 performed before the iteration loop (and in the
`nodes.length < 2` early return): position and previous position. -/
def pinHeadFull (anchor : ℝ × ℝ) : List Node → List Node
  | [] => []
  | n :: rest => { n with x := anchor.1, y := anchor.2, px := anchor.1, py := anchor.2 } :: rest

/-- `const tgtX = nodes[ti].x, tgtY = nodes[ti].y;` the post-integration tail
position used as the forward-reach target. -/
def tailTarget (ns : List Node) : ℝ × ℝ :=
  match ns.getLast? with
  | some n => (n.x, n.y)
  | none => (0, 0)

/-- One iteration of the constraint loop: forward reach then backward reach. -/
def fabrikIter (anchor tgt : ℝ × ℝ) (ns : List Node) : List Node :=
  backwardPass anchor (forwardPass tgt ns)

/-- `satisfyRope(anchorX, anchorY)`: pin the head, capture the tail target,
then run `ROPE_ITERS` forward+backward reach iterations.  With fewer than two
nodes only the head pin happens. -/
def satisfyRope (anchor : ℝ × ℝ) (ns : List Node) : List Node :=
  if ns.length < 2 then pinHeadFull anchor ns
  else
    iterateN (fabrikIter anchor (tailTarget (pinHeadFull anchor ns))) ROPE_ITERS
      (pinHeadFull anchor ns)

/-- Body of the `integrateRope` loop for one (non-head) node: damped implicit
velocity plus a reduced gravity contribution. -/
def integrateNode (dt : ℝ) (n : Node) : Node :=
  let vx := (n.x - n.px) * ROPE_DAMP
  let vy := (n.y - n.py) * ROPE_DAMP + grav * dt * dt * 0.4
  { x := n.x + vx, y := n.y + vy, px := n.x, py := n.y }

/-- `integrateRope(dt)`: Verlet prediction for every node except the pinned
head (the loop starts at `i = 1`). -/
def integrateRope (dt : ℝ) : List Node → List Node
  | [] => []
  | h :: rest => h :: rest.map (integrateNode dt)

/-- `targetCountForLength(L)`:
`Math.max(1, Math.floor(L / SEG_LEN)) + 1` (segments needed, plus one node). -/
def targetCountForLength (L : ℝ) : ℕ :=
  (max 1 ⌊L / SEG_LEN⌋).toNat + 1

/-- `addTailSegment()`: duplicate the ray through the last two nodes and
append a node one segment length beyond the tail (guard `Math.hypot || 1`).
The source indexes `nodes[n-2]`, so it is only ever called with at least two
nodes; with fewer this model leaves the list unchanged. -/
def addTailSegment (ns : List Node) : List Node :=
  match ns.reverse with
  | b :: a :: _ =>
    let dx0 := b.x - a.x
    let dy0 := b.y - a.y
    let d0 := Real.sqrt (dx0 ^ 2 + dy0 ^ 2)
    let d := if d0 = 0 then 1 else d0
    let nx := b.x + dx0 / d * SEG_LEN
    let ny := b.y + dy0 / d * SEG_LEN
    ns ++ [{ x := nx, y := ny, px := nx, py := ny }]
  | _ => ns

/-- The `while (nodes.length < target) addTailSegment();` loop of
`ensureRopeForLength`, with explicit fuel (`target` steps always suffice
because each `addTailSegment` appends exactly one node). -/
def ropeGrowLoop (fuel target : ℕ) (ns : List Node) : List Node :=
  match fuel with
  | 0 => ns
  | k + 1 => if ns.length < target then ropeGrowLoop k target (addTailSegment ns) else ns

/-- `ensureRopeForLength(L)`: grow (never shrink) the chain up to
`targetCountForLength(L)` nodes.  The preceding
`SEG_LEN = clamp(SEG_LEN, 6, 14)` is the identity on the constant 10. -/
def ensureRopeForLength (L : ℝ) (ns : List Node) : List Node :=
  ropeGrowLoop (targetCountForLength L) (targetCountForLength L) ns

/-- The spool length update of `step` (part_001):
`const feed = clamp(v_ball_t, 0, v_max_feed); L_free = clamp(L_free + feed * dt, 0, L_total);` -/
def spoolFeed (dt v_ball_t L : ℝ) : ℝ :=
  clamp (L + clamp v_ball_t 0 v_max_feed * dt) 0 L_total

/-- The combined simulation state relevant to the rope phase: the rigid ball
(the part_001 ball has exactly the fields of the impulse variant) and the
rope nodes. -/
structure IKSim where
  ball : Impulse.Ball
  nodes : List Node

/-- The rope phase of `step` (part_001):
`integrateRope(dt); satisfyRope(anchorX, anchorY);`, where the anchor was
computed earlier in the tick from the ball pose and spool state. -/
def ropePhase (dt : ℝ) (anchor : ℝ × ℝ) (s : IKSim) : IKSim :=
  { s with nodes := satisfyRope anchor (integrateRope dt s.nodes) }

/-- The adjacency relation established by the constraint solve: consecutive
nodes are either exactly coincident (the degenerate zero-length guard) or
exactly one segment length apart. -/
def ropeLink (a b : Node) : Prop :=
  (b.x = a.x ∧ b.y = a.y) ∨ nodeDist a b = SEG_LEN

end IK

end

/-! ## Helper lemmas -/

theorem maybeFreeNext_ge (k : ℕ) : ∀ fc, fc ≤ Disk.maybeFreeNext fc k := by
  induction k with
  | zero => intro fc; simp [Disk.maybeFreeNext]
  | succ n ih =>
    intro fc
    rw [Disk.maybeFreeNext]
    split
    · exact le_refl fc
    · exact le_trans (Nat.le_succ fc) (ih (fc + 1))

theorem maybeFreeNext_ub (k : ℕ) :
    ∀ fc, fc ≤ Disk.TOTAL_POINTS - 1 → Disk.maybeFreeNext fc k ≤ Disk.TOTAL_POINTS - 1 := by
  induction k with
  | zero => intro fc h; simpa [Disk.maybeFreeNext] using h
  | succ n ih =>
    intro fc h
    rw [Disk.maybeFreeNext]
    split
    · exact h
    · exact ih (fc + 1) (by omega)

theorem diskFloor_y_le (h : ℝ) (b : Disk.Ball) :
    (Disk.diskFloor h b).y ≤ h - Disk.radius := by
  unfold Disk.diskFloor
  split_ifs with hc
  · exact le_refl _
  · push_neg at hc
    linarith

theorem diskFloor_x (h : ℝ) (b : Disk.Ball) : (Disk.diskFloor h b).x = b.x := by
  unfold Disk.diskFloor
  split_ifs <;> rfl

theorem diskCeiling_y_bounds (h : ℝ) (b : Disk.Ball) (hH : 2 * Disk.radius ≤ h)
    (hub : b.y ≤ h - Disk.radius) :
    Disk.radius ≤ (Disk.diskCeiling b).y ∧ (Disk.diskCeiling b).y ≤ h - Disk.radius := by
  unfold Disk.diskCeiling
  split_ifs with hc
  · exact ⟨le_refl _, show Disk.radius ≤ h - Disk.radius by linarith⟩
  · push_neg at hc
    exact ⟨show Disk.radius ≤ b.y by linarith, hub⟩

theorem diskCeiling_x (b : Disk.Ball) : (Disk.diskCeiling b).x = b.x := by
  unfold Disk.diskCeiling
  split_ifs <;> rfl

theorem diskLeft_x_ge (b : Disk.Ball) : Disk.radius ≤ (Disk.diskLeft b).x := by
  unfold Disk.diskLeft
  split_ifs with hc
  · exact le_refl _
  · push_neg at hc
    linarith

theorem diskLeft_y (b : Disk.Ball) : (Disk.diskLeft b).y = b.y := by
  unfold Disk.diskLeft
  split_ifs <;> rfl

theorem diskRight_x_bounds (w : ℝ) (b : Disk.Ball) (hW : 2 * Disk.radius ≤ w)
    (hlb : Disk.radius ≤ b.x) :
    Disk.radius ≤ (Disk.diskRight w b).x ∧ (Disk.diskRight w b).x ≤ w - Disk.radius := by
  unfold Disk.diskRight
  split_ifs with hc
  · exact ⟨show Disk.radius ≤ w - Disk.radius by linarith, le_refl _⟩
  · push_neg at hc
    exact ⟨hlb, by linarith⟩

theorem diskRight_y (w : ℝ) (b : Disk.Ball) : (Disk.diskRight w b).y = b.y := by
  unfold Disk.diskRight
  split_ifs <;> rfl

theorem diskRoll_x (b : Disk.Ball) : (Disk.diskRoll b).x = b.x := by
  unfold Disk.diskRoll
  split_ifs <;> rfl

theorem diskRoll_y (b : Disk.Ball) : (Disk.diskRoll b).y = b.y := by
  unfold Disk.diskRoll
  split_ifs <;> rfl

/-! ## C9: the time step is the raw elapsed time clamped to [0, maxStep] -/

/-- C9: the tick's `dt` is the raw elapsed seconds clamped to
`[0, 0.033]`: it is always within those bounds, a zero or negative raw
elapsed time yields `dt = 0` (the tick still runs, with that value), and an
in-range elapsed time (up to 33 ms) is passed through unchanged. -/
theorem c9_dt_clamp (now last : ℚ) :
    0 ≤ computeDt now last ∧ computeDt now last ≤ 0.033 ∧
      (now - last ≤ 0 → computeDt now last = 0) ∧
      (0 ≤ now - last → now - last ≤ 33 → computeDt now last = (now - last) / 1000) := by
  unfold computeDt clamp
  refine ⟨le_max_left _ _, max_le (by norm_num) (min_le_left _ _), ?_, ?_⟩
  · intro h
    have h1 : (now - last) / 1000 ≤ 0 := by linarith
    have h2 : min (0.033 : ℚ) ((now - last) / 1000) ≤ 0 :=
      le_trans (min_le_right _ _) h1
    exact max_eq_left h2
  · intro h1 h2
    have hv : (now - last) / 1000 ≤ 0.033 := by linarith
    have hv0 : (0 : ℚ) ≤ (now - last) / 1000 := by linarith
    rw [min_eq_right hv, max_eq_right hv0]

/-- Witness for C9 at a tick whose raw elapsed time is negative. -/
theorem c9_dt_clamp_witness : computeDt 5 10 = 0 :=
  (c9_dt_clamp 5 10).2.2.1 (by norm_num)

/-! ## C5: spool released length is monotone and stays in [0, totalLength] -/

/-- C5: the spool feed update never decreases the released length (the feed
is clamped below by 0, so even a surface velocity pointing against the exit
tangent never re-spools), and the result always lies in `[0, L_total]`. -/
theorem c5_spool_monotone_bounded (dt v L : ℝ) (hdt : 0 ≤ dt) (h0 : 0 ≤ L)
    (h1 : L ≤ IK.L_total) :
    L ≤ IK.spoolFeed dt v L ∧ 0 ≤ IK.spoolFeed dt v L ∧
      IK.spoolFeed dt v L ≤ IK.L_total := by
  unfold IK.spoolFeed clamp
  have hfeed : 0 ≤ max 0 (min IK.v_max_feed v) := le_max_left _ _
  have hstep : L ≤ L + max 0 (min IK.v_max_feed v) * dt := by
    nlinarith
  refine ⟨?_, le_max_left _ _, max_le (by unfold IK.L_total; norm_num) (min_le_left _ _)⟩
  exact le_trans (le_min h1 hstep) (le_max_right _ _)

/-- Witness for C5: a tick with the surface velocity pointing against the
exit tangent (negative projection) still does not decrease the length. -/
theorem c5_spool_monotone_bounded_witness :
    (100 : ℝ) ≤ IK.spoolFeed (1 / 10) (-5) 100 ∧ 0 ≤ IK.spoolFeed (1 / 10) (-5) 100 ∧
      IK.spoolFeed (1 / 10) (-5) 100 ≤ IK.L_total :=
  c5_spool_monotone_bounded (1 / 10) (-5) 100 (by norm_num) (by norm_num)
    (by unfold IK.L_total; norm_num)

/-! ## C6: freeCount is monotone and never exceeds TOTAL_POINTS - 1 -/

/-- C6: the particle-promotion loop `maybeFreeNext` (through which both the
tension-triggered and the hit-triggered release go) never decreases
`freeCount`, and never pushes it past `TOTAL_POINTS - 1`, so at least one
wound anchor particle always remains. -/
theorem c6_freeCount_monotone_bounded (fc k : ℕ) :
    fc ≤ Disk.maybeFreeNext fc k ∧
      (fc ≤ Disk.TOTAL_POINTS - 1 → Disk.maybeFreeNext fc k ≤ Disk.TOTAL_POINTS - 1) :=
  ⟨maybeFreeNext_ge k fc, maybeFreeNext_ub k fc⟩

/-- Witness for C6 at the initial `freeCount = 4` with a 10-segment release. -/
theorem c6_freeCount_monotone_bounded_witness :
    4 ≤ Disk.maybeFreeNext 4 10 ∧ Disk.maybeFreeNext 4 10 ≤ Disk.TOTAL_POINTS - 1 :=
  ⟨(c6_freeCount_monotone_bounded 4 10).1,
    (c6_freeCount_monotone_bounded 4 10).2 (by norm_num [Disk.TOTAL_POINTS])⟩

/-! ## C7: target node count and lazy growth of the IK chain -/

theorem addTailSegment_grows (ns : List IK.Node) (h2 : 2 ≤ ns.length) :
    ∃ nd, IK.addTailSegment ns = ns ++ [nd] := by
  have h2' : 2 ≤ ns.reverse.length := by simpa using h2
  unfold IK.addTailSegment
  cases hrev : ns.reverse with
  | nil => rw [hrev] at h2'; simp at h2'
  | cons b tl =>
    cases tl with
    | nil => rw [hrev] at h2'; simp at h2'
    | cons a t => exact ⟨_, rfl⟩

theorem ropeGrowLoop_spec (fuel : ℕ) :
    ∀ (target : ℕ) (ns : List IK.Node), 2 ≤ ns.length → target ≤ fuel + ns.length →
      (IK.ropeGrowLoop fuel target ns).length = max ns.length target ∧
        ∃ ext, IK.ropeGrowLoop fuel target ns = ns ++ ext := by
  induction fuel with
  | zero =>
    intro target ns h2 hle
    refine ⟨?_, ⟨[], by simp [IK.ropeGrowLoop]⟩⟩
    simp [IK.ropeGrowLoop]
    omega
  | succ k ih =>
    intro target ns h2 hle
    rw [IK.ropeGrowLoop]
    split_ifs with hlt
    · obtain ⟨nd, hnd⟩ := addTailSegment_grows ns h2
      have hlen : (IK.addTailSegment ns).length = ns.length + 1 := by
        rw [hnd]; simp
      obtain ⟨hL, ext, hext⟩ :=
        ih target (IK.addTailSegment ns) (by omega) (by omega)
      constructor
      · rw [hL, hlen]
        omega
      · exact ⟨[nd] ++ ext, by rw [hext, hnd, List.append_assoc]⟩
    · exact ⟨by omega, ⟨[], by simp⟩⟩

/-- C7 counterexample: the source computes
`Math.max(1, Math.floor(L / SEG_LEN)) + 1`, so for any released length below
one segment (here `L = 5`, `SEG_LEN = 10`) the target is 2 nodes, while the
claim's formula `floor(L / segmentLength) + 1` gives 1. -/
theorem c7_targetCount_counterexample :
    IK.targetCountForLength 5 = 2 ∧ ⌊(5 : ℝ) / IK.SEG_LEN⌋ + 1 = 1 := by
  constructor
  · norm_num [IK.targetCountForLength, IK.SEG_LEN]
  · norm_num [IK.SEG_LEN]

/-- C7 (amended): the target node count is
`max(1, floor(L / SEG_LEN)) + 1`, and one `ensureRopeForLength` call grows
the chain all the way to that target (appending as many tail nodes as
needed, not one per tick), never removing or reordering existing nodes. -/
theorem c7_rope_growth (L : ℝ) (ns : List IK.Node) (h2 : 2 ≤ ns.length) :
    (IK.ensureRopeForLength L ns).length = max ns.length (IK.targetCountForLength L) ∧
      ∃ ext, IK.ensureRopeForLength L ns = ns ++ ext := by
  unfold IK.ensureRopeForLength
  exact ropeGrowLoop_spec _ _ ns h2 (by omega)

/-- Witness for C7: a two-node chain with released length 50 grows to the
5-segment target in one call. -/
theorem c7_rope_growth_witness :
    (IK.ensureRopeForLength 50 [⟨0, 0, 0, 0⟩, ⟨10, 0, 10, 0⟩]).length =
        max ([⟨0, 0, 0, 0⟩, ⟨10, 0, 10, 0⟩] : List IK.Node).length
          (IK.targetCountForLength 50) ∧
      ∃ ext, IK.ensureRopeForLength 50 [⟨0, 0, 0, 0⟩, ⟨10, 0, 10, 0⟩] =
        [⟨0, 0, 0, 0⟩, ⟨10, 0, 10, 0⟩] ++ ext :=
  c7_rope_growth 50 [⟨0, 0, 0, 0⟩, ⟨10, 0, 10, 0⟩] (by simp)

/-! ## C8: the rope update never writes to the rigid body -/

/-- C8: the rope phase of a tick (Verlet prediction `integrateRope` followed
by the FABRIK solve `satisfyRope`) only replaces the rope nodes; the rigid
body's position, velocity, angle and spin are exactly unchanged for every
state, time step and anchor. -/
theorem c8_ropePhase_ball_unchanged (dt : ℝ) (anchor : ℝ × ℝ) (s : IK.IKSim) :
    (IK.ropePhase dt anchor s).ball = s.ball := rfl

/-! ## C4: segment lengths after the FABRIK constraint solve -/

theorem placeFrom_dist (p q : ℝ × ℝ) :
    IK.placeFrom p q = p ∨
      Real.sqrt (((IK.placeFrom p q).1 - p.1) ^ 2 + ((IK.placeFrom p q).2 - p.2) ^ 2) =
        IK.SEG_LEN := by
  unfold IK.placeFrom
  set dx := q.1 - p.1 with hdx
  set dy := q.2 - p.2 with hdy
  by_cases hz : Real.sqrt (dx ^ 2 + dy ^ 2) = 0
  · left
    have h1 : (0 : ℝ) ≤ dx ^ 2 + dy ^ 2 := by positivity
    have hsum : dx ^ 2 + dy ^ 2 = 0 := by
      have := Real.sqrt_eq_zero h1
      exact this.mp hz
    have hdx0 : dx = 0 := by nlinarith [sq_nonneg dx, sq_nonneg dy]
    have hdy0 : dy = 0 := by nlinarith [sq_nonneg dx, sq_nonneg dy]
    simp only [if_pos hz, hdx0, hdy0]
    simp
  · right
    simp only [if_neg hz]
    have hpos : 0 < dx ^ 2 + dy ^ 2 := by
      rcases lt_or_eq_of_le (show (0 : ℝ) ≤ dx ^ 2 + dy ^ 2 by positivity) with h | h
      · exact h
      · exact absurd (by rw [← h, Real.sqrt_zero]) hz
    have hd0pos : 0 < Real.sqrt (dx ^ 2 + dy ^ 2) := Real.sqrt_pos.mpr hpos
    have hd2 : Real.sqrt (dx ^ 2 + dy ^ 2) ^ 2 = dx ^ 2 + dy ^ 2 :=
      Real.sq_sqrt (le_of_lt hpos)
    set d0 := Real.sqrt (dx ^ 2 + dy ^ 2) with hd0
    have hne : d0 ≠ 0 := ne_of_gt hd0pos
    have key : (p.1 + dx * (IK.SEG_LEN / d0) - p.1) ^ 2 +
        (p.2 + dy * (IK.SEG_LEN / d0) - p.2) ^ 2 = IK.SEG_LEN ^ 2 := by
      field_simp
      nlinarith [hd2]
    rw [key, Real.sqrt_sq (by norm_num [IK.SEG_LEN])]

theorem reach_step_link (a b : IK.Node) :
    IK.ropeLink a { b with x := (IK.placeFrom (a.x, a.y) (b.x, b.y)).1,
                           y := (IK.placeFrom (a.x, a.y) (b.x, b.y)).2 } := by
  rcases placeFrom_dist (a.x, a.y) (b.x, b.y) with h | h
  · left
    constructor
    · show (IK.placeFrom (a.x, a.y) (b.x, b.y)).1 = a.x
      rw [h]
    · show (IK.placeFrom (a.x, a.y) (b.x, b.y)).2 = a.y
      rw [h]
  · right
    unfold IK.nodeDist
    exact h

theorem reachFwdList_chain (l : List IK.Node) :
    ∀ a : IK.Node, List.Chain' IK.ropeLink (a :: IK.reachFwdList (a.x, a.y) l) := by
  induction l with
  | nil =>
    intro a
    simp [IK.reachFwdList]
  | cons b rest ih =>
    intro a
    simp only [IK.reachFwdList]
    refine List.chain'_cons.mpr ⟨reach_step_link a b, ?_⟩
    exact ih { b with x := (IK.placeFrom (a.x, a.y) (b.x, b.y)).1,
                      y := (IK.placeFrom (a.x, a.y) (b.x, b.y)).2 }

theorem backwardPass_chain (anchor : ℝ × ℝ) (l : List IK.Node) :
    List.Chain' IK.ropeLink (IK.backwardPass anchor l) := by
  cases l with
  | nil => simp [IK.backwardPass]
  | cons hd rest =>
    simp only [IK.backwardPass]
    exact reachFwdList_chain rest { hd with x := anchor.1, y := anchor.2 }

/-- C4 counterexample: the distance tolerance does not hold for exactly
coincident adjacent nodes, which the `|| 1e-6` guard leaves in place: a
degenerate chain whose two nodes and anchor all coincide stays fully
collapsed through the solve, with adjacent distance 0 instead of
SEG_LEN ± 2%. -/
theorem c4_chain_counterexample :
    ¬ List.Chain' (fun a b => |IK.nodeDist a b - IK.SEG_LEN| ≤ 0.02 * IK.SEG_LEN)
      (IK.satisfyRope (0, 0) [⟨0, 0, 0, 0⟩, ⟨0, 0, 0, 0⟩]) := by
  have hpin : IK.pinHeadFull ((0 : ℝ), (0 : ℝ)) [⟨0, 0, 0, 0⟩, ⟨0, 0, 0, 0⟩] =
      [⟨0, 0, 0, 0⟩, ⟨0, 0, 0, 0⟩] := rfl
  have htgt : IK.tailTarget [(⟨0, 0, 0, 0⟩ : IK.Node), ⟨0, 0, 0, 0⟩] = ((0 : ℝ), (0 : ℝ)) := rfl
  have hfix : IK.fabrikIter (0, 0) (0, 0) [(⟨0, 0, 0, 0⟩ : IK.Node), ⟨0, 0, 0, 0⟩] =
      [⟨0, 0, 0, 0⟩, ⟨0, 0, 0, 0⟩] := by
    simp [IK.fabrikIter, IK.forwardPass, IK.backwardPass, IK.reachFwdList, IK.placeFrom,
      Real.sqrt_zero]
  have hiter : ∀ k, iterateN (IK.fabrikIter (0, 0) (0, 0)) k
      [(⟨0, 0, 0, 0⟩ : IK.Node), ⟨0, 0, 0, 0⟩] = [⟨0, 0, 0, 0⟩, ⟨0, 0, 0, 0⟩] := by
    intro k
    induction k with
    | zero => rfl
    | succ n ihn => rw [iterateN, ihn, hfix]
  have hres : IK.satisfyRope (0, 0) [⟨0, 0, 0, 0⟩, ⟨0, 0, 0, 0⟩] =
      [⟨0, 0, 0, 0⟩, ⟨0, 0, 0, 0⟩] := by
    unfold IK.satisfyRope
    rw [if_neg (by simp)]
    rw [hpin, htgt, hiter]
  rw [hres]
  intro hch
  have := (List.chain'_cons.mp hch).1
  rw [show IK.nodeDist ⟨0, 0, 0, 0⟩ ⟨0, 0, 0, 0⟩ = 0 by
    simp [IK.nodeDist]] at this
  rw [IK.SEG_LEN] at this
  have habs : |(0 : ℝ) - 10| = 10 := by norm_num
  rw [habs] at this
  norm_num at this

/-- C4 (amended): after `satisfyRope` completes, every adjacent node pair is
either at distance exactly `SEG_LEN` (in particular within any tolerance
such as 2%) or exactly coincident — the degenerate case kept in place by the
zero-length guard `Math.hypot(...) || 1e-6`.  This holds for every anchor
and every input chain, including the tick in which a node was just
appended. -/
theorem c4_satisfyRope_segment_lengths (anchor : ℝ × ℝ) (ns : List IK.Node) :
    List.Chain' IK.ropeLink (IK.satisfyRope anchor ns) := by
  unfold IK.satisfyRope
  split_ifs with hlen
  · cases ns with
    | nil => simp [IK.pinHeadFull]
    | cons a tl =>
      cases tl with
      | nil => simp [IK.pinHeadFull]
      | cons b tl2 =>
        simp at hlen
        omega
  · rw [show IK.ROPE_ITERS = 4 + 1 from rfl, iterateN, IK.fabrikIter]
    exact backwardPass_chain anchor _

/-! ## C3: resolvePlaneContact skips separating contacts and clamps friction -/

/-- C3: `resolvePlaneContact` leaves the body untouched when the normal
component of the contact-point velocity is separating (≥ 0); otherwise it
applies the normal impulse and then the friction impulse, which is the full
slip-cancelling impulse `-vt2*kT` clamped to the Coulomb cone, so its
magnitude never exceeds `mu * |Jn|`. -/
theorem c3_resolvePlaneContact_skip_and_coulomb (b : Impulse.Ball)
    (nx ny px py e mu : ℚ) (hmu : 0 ≤ mu) :
    (0 ≤ Impulse.planeVn nx ny b →
        Impulse.resolvePlaneContact nx ny px py e mu b = b) ∧
      (Impulse.planeVn nx ny b < 0 →
        Impulse.resolvePlaneContact nx ny px py e mu b =
            Impulse.applyImpulseAtPoint (Impulse.planeJt nx ny e mu b * -ny)
              (Impulse.planeJt nx ny e mu b * nx) (-nx * Impulse.radius)
              (-ny * Impulse.radius) (Impulse.afterNormalImpulse nx ny e b) ∧
          |Impulse.planeJt nx ny e mu b| ≤ mu * |Impulse.planeJn nx ny e b|) := by
  constructor
  · intro h
    unfold Impulse.resolvePlaneContact
    rw [if_pos h]
  · intro h
    refine ⟨?_, ?_⟩
    · unfold Impulse.resolvePlaneContact
      rw [if_neg (not_le.mpr h)]
    · have hM : 0 ≤ mu * |Impulse.planeJn nx ny e b| := mul_nonneg hmu (abs_nonneg _)
      unfold Impulse.planeJt clamp
      rw [abs_le]
      exact ⟨le_max_left _ _, max_le (by linarith) (min_le_left _ _)⟩

/-- Witness for C3 at a concrete floor contact with approaching normal
velocity (the friction impulse obeys the Coulomb bound there). -/
theorem c3_resolvePlaneContact_witness :
    |Impulse.planeJt 0 (-1) Impulse.rest Impulse.muGround ⟨500, 960, 3, 100, 0, 0⟩| ≤
      Impulse.muGround * |Impulse.planeJn 0 (-1) Impulse.rest ⟨500, 960, 3, 100, 0, 0⟩| :=
  ((c3_resolvePlaneContact_skip_and_coulomb ⟨500, 960, 3, 100, 0, 0⟩ 0 (-1) 500 960
        Impulse.rest Impulse.muGround (by norm_num [Impulse.muGround])).2
    (by norm_num [Impulse.planeVn, Impulse.contactVelocity, Impulse.radius])).2

/-! ## C2: containment of the centre after boundary resolution -/

/-- C2 counterexample: in the impulse variant, positional correction removes
only 80% of (penetration - slop), so a tick that detects a floor penetration
can end with the centre still below `h - radius`.  Concretely, at
`w = h = 1000`, `dt = 0`, a resting ball at `y = 1000` penetrates the floor
by 40 and ends the tick at `y = 968.16 > 960`. -/
theorem c2_containment_counterexample :
    1000 < (Impulse.integratePhase 0 ⟨500, 1000, 0, 0, 0, 0⟩).y + Impulse.radius ∧
      1000 - Impulse.radius < (Impulse.stepPhysics 1000 1000 0 ⟨500, 1000, 0, 0, 0, 0⟩).y := by
  constructor
  · norm_num [Impulse.integratePhase, Impulse.grav, Impulse.air, Impulse.radius]
  · norm_num [Impulse.stepPhysics, Impulse.floorContact, Impulse.ceilingContact,
      Impulse.leftWallContact, Impulse.rightWallContact, Impulse.integratePhase,
      Impulse.positionalCorrection, Impulse.resolvePlaneContact, Impulse.planeVn,
      Impulse.contactVelocity, Impulse.applyImpulseAtPoint, Impulse.afterNormalImpulse,
      Impulse.planeJt, Impulse.planeJn, Impulse.planeKN, Impulse.planeKT, Impulse.planeVt2,
      Impulse.cross2, Impulse.grav, Impulse.rest, Impulse.air, Impulse.radius,
      Impulse.muGround, Impulse.mass, Impulse.inertia, clamp]

/-- C2 (amended): in the disk variant, `integrateDisk` clamps the centre, so
after the boundary resolution of any tick — whether or not a penetration was
detected — the centre lies in `[radius, w-radius] × [radius, h-radius]`,
provided the world is at least one diameter wide and high. -/
theorem c2_containment_integrateDisk (w h dt : ℝ) (b : Disk.Ball)
    (hW : 2 * Disk.radius ≤ w) (hH : 2 * Disk.radius ≤ h) :
    Disk.radius ≤ (Disk.integrateDisk w h dt b).x ∧
      (Disk.integrateDisk w h dt b).x ≤ w - Disk.radius ∧
      Disk.radius ≤ (Disk.integrateDisk w h dt b).y ∧
      (Disk.integrateDisk w h dt b).y ≤ h - Disk.radius := by
  unfold Disk.integrateDisk
  set b1 := Disk.diskIntegrate dt b
  set b2 := Disk.diskFloor h b1
  set b3 := Disk.diskCeiling b2
  set b4 := Disk.diskLeft b3
  set b5 := Disk.diskRight w b4
  have hy2 : b2.y ≤ h - Disk.radius := diskFloor_y_le h b1
  have hy3 := diskCeiling_y_bounds h b2 hH hy2
  have hx3 : b3.x = b2.x := diskCeiling_x b2
  have hx4 := diskLeft_x_ge b3
  have hx5 := diskRight_x_bounds w b4 hW hx4
  have hy4 : b4.y = b3.y := diskLeft_y b3
  have hy5 : b5.y = b4.y := diskRight_y w b4
  have hxR : (Disk.diskRoll b5).x = b5.x := diskRoll_x b5
  have hyR : (Disk.diskRoll b5).y = b5.y := diskRoll_y b5
  rw [hxR, hyR, hy5, hy4]
  exact ⟨hx5.1, hx5.2, hy3.1, hy3.2⟩

/-! ## C1: energy accounting of the physics phases -/

/-- C1 counterexample: a tick with no pointer hit can increase the total
kinetic + potential energy.  At `w = h = 1000`, `dt = 1/100`, a ball at
`y = 990` moving upward at 600 px/s penetrates the floor; the positional
correction lifts the centre by 19.136 px while the contact impulse is
skipped (the contact velocity is separating), so the energy grows from
192000 to about 213511. -/
theorem c1_energy_counterexample :
    Impulse.energy 1000 ⟨500, 990, 0, -600, 0, 0⟩ <
      Impulse.energy 1000 (Impulse.stepPhysics 1000 1000 (1 / 100) ⟨500, 990, 0, -600, 0, 0⟩) := by
  norm_num [Impulse.stepPhysics, Impulse.floorContact, Impulse.ceilingContact,
    Impulse.leftWallContact, Impulse.rightWallContact, Impulse.integratePhase,
    Impulse.positionalCorrection, Impulse.resolvePlaneContact, Impulse.planeVn,
    Impulse.contactVelocity, Impulse.applyImpulseAtPoint, Impulse.afterNormalImpulse,
    Impulse.planeJt, Impulse.planeJn, Impulse.planeKN, Impulse.planeKT, Impulse.planeVt2,
    Impulse.cross2, Impulse.grav, Impulse.rest, Impulse.air, Impulse.radius,
    Impulse.muGround, Impulse.mass, Impulse.inertia, Impulse.energy, clamp]

/-- C1 (amended): in a tick whose integrated position triggers none of the
four boundary blocks (so no positional correction and no contact impulse),
the total kinetic + potential energy never increases: semi-implicit Euler
gravity loses `½·g²·dt²` and the damping factor 0.996 only removes energy. -/
theorem c1_energy_nonincrease_no_penetration (w h dt : ℚ) (b : Impulse.Ball)
    (hdt : 0 ≤ dt)
    (hf : (Impulse.integratePhase dt b).y + Impulse.radius ≤ h)
    (hc : Impulse.radius ≤ (Impulse.integratePhase dt b).y)
    (hl : Impulse.radius ≤ (Impulse.integratePhase dt b).x)
    (hr : (Impulse.integratePhase dt b).x + Impulse.radius ≤ w) :
    Impulse.energy h (Impulse.stepPhysics w h dt b) ≤ Impulse.energy h b := by
  have hrad : (0 : ℚ) < Impulse.radius := by norm_num [Impulse.radius]
  set b1 := Impulse.integratePhase dt b with hb1
  have e1 : Impulse.floorContact h b1 = b1 := by
    unfold Impulse.floorContact
    rw [if_neg (not_lt.mpr hf)]
  have e2 : Impulse.ceilingContact b1 = b1 := by
    unfold Impulse.ceilingContact
    rw [if_neg (not_lt.mpr (by linarith))]
  have e3 : Impulse.leftWallContact b1 = b1 := by
    unfold Impulse.leftWallContact
    rw [if_neg (not_lt.mpr (by linarith))]
  have e4 : Impulse.rightWallContact w b1 = b1 := by
    unfold Impulse.rightWallContact
    rw [if_neg (not_lt.mpr hr)]
  have hstep : Impulse.stepPhysics w h dt b = b1 := by
    unfold Impulse.stepPhysics
    rw [← hb1, e1, e2, e3, e4]
  rw [hstep, hb1]
  unfold Impulse.energy Impulse.integratePhase Impulse.inertia Impulse.grav
    Impulse.air Impulse.radius Impulse.mass
  simp only
  nlinarith [sq_nonneg b.vx, sq_nonneg b.spin, sq_nonneg (b.vy + 1200 * dt), sq_nonneg dt,
    mul_nonneg hdt hdt]

/-- Witness for C1 at a mid-air tick (no boundary penetration). -/
theorem c1_energy_nonincrease_witness :
    Impulse.energy 1000 (Impulse.stepPhysics 1000 1000 (1 / 100) ⟨500, 500, 0, 0, 0, 0⟩) ≤
      Impulse.energy 1000 ⟨500, 500, 0, 0, 0, 0⟩ :=
  c1_energy_nonincrease_no_penetration 1000 1000 (1 / 100) ⟨500, 500, 0, 0, 0, 0⟩
    (by norm_num)
    (by norm_num [Impulse.integratePhase, Impulse.grav, Impulse.air, Impulse.radius])
    (by norm_num [Impulse.integratePhase, Impulse.grav, Impulse.air, Impulse.radius])
    (by norm_num [Impulse.integratePhase, Impulse.grav, Impulse.air, Impulse.radius])
    (by norm_num [Impulse.integratePhase, Impulse.grav, Impulse.air, Impulse.radius])

/-! ## C10: gating of the disk-variant pointer handler -/

/-- C10: `handleMouseImpulses` applies the impulse and promotes particles
only when the pointer is down, the (just decremented) cooldown is zero and
the pointer is within `radius + 3` of the disk centre.  In every other case
— in particular whenever the down flag is false — it returns after only
updating the cooldown and the stored last-pointer sample, leaving the disk
state and `freeCount` unchanged.  On a hit, the cooldown is reset to 0.10,
the disk position is untouched (only its previous-position velocity
changes), and `freeCount` does not decrease. -/
theorem c10_handleMouseImpulses_gating (dt now : ℝ) (m : Disk.Mouse) (s : Disk.SimState) :
    ((m.down = false ∨ 0 < max 0 (s.hitCooldown - dt) ∨
        Disk.radius + 3 < Real.sqrt ((m.x - s.ball.x) ^ 2 + (m.y - s.ball.y) ^ 2)) →
      Disk.handleMouseImpulses dt now m s =
        { s with hitCooldown := max 0 (s.hitCooldown - dt), lastMouse := ⟨m.x, m.y, now⟩ }) ∧
      (m.down = true → max 0 (s.hitCooldown - dt) = 0 →
        Real.sqrt ((m.x - s.ball.x) ^ 2 + (m.y - s.ball.y) ^ 2) ≤ Disk.radius + 3 →
        (Disk.handleMouseImpulses dt now m s).hitCooldown = 0.10 ∧
          (Disk.handleMouseImpulses dt now m s).ball.x = s.ball.x ∧
          (Disk.handleMouseImpulses dt now m s).ball.y = s.ball.y ∧
          s.freeCount ≤ (Disk.handleMouseImpulses dt now m s).freeCount) := by
  constructor
  · intro h
    simp only [Disk.handleMouseImpulses]
    rcases h with h | h | h
    · rw [if_pos h]
    · by_cases hd : m.down = false
      · rw [if_pos hd]
      · rw [if_neg hd, if_pos h]
    · by_cases hd : m.down = false
      · rw [if_pos hd]
      · rw [if_neg hd]
        by_cases hcd : 0 < max 0 (s.hitCooldown - dt)
        · rw [if_pos hcd]
        · rw [if_neg hcd, if_pos h]
  · intro hdown hcd hdist
    simp only [Disk.handleMouseImpulses]
    rw [if_neg (by simp [hdown]), if_neg (by simp [hcd]), if_neg (not_lt.mpr hdist)]
    exact ⟨rfl, rfl, rfl, maybeFreeNext_ge _ _⟩

/-- Witness for C10: with the pointer up, the handler only decrements the
cooldown and updates the last-pointer sample. -/
theorem c10_handleMouseImpulses_gating_witness :
    Disk.handleMouseImpulses 1 2 ⟨0, 0, false⟩ ⟨⟨1, 2, 3, 4, 5, 6, false⟩, ⟨0, 0, 0⟩, 5, 7⟩ =
      { (⟨⟨1, 2, 3, 4, 5, 6, false⟩, ⟨0, 0, 0⟩, 5, 7⟩ : Disk.SimState) with
        hitCooldown := max 0 (5 - 1), lastMouse := ⟨0, 0, 2⟩ } :=
  (c10_handleMouseImpulses_gating 1 2 ⟨0, 0, false⟩
      ⟨⟨1, 2, 3, 4, 5, 6, false⟩, ⟨0, 0, 0⟩, 5, 7⟩).1 (Or.inl rfl)

/-- Witness for C2 at a concrete tick that detects a floor penetration. -/
theorem c2_containment_integrateDisk_witness :
    Disk.radius ≤ (Disk.integrateDisk 1000 1000 0 ⟨500, 990, 500, 990, 0, 0, false⟩).x ∧
      (Disk.integrateDisk 1000 1000 0 ⟨500, 990, 500, 990, 0, 0, false⟩).x ≤ 1000 - Disk.radius ∧
      Disk.radius ≤ (Disk.integrateDisk 1000 1000 0 ⟨500, 990, 500, 990, 0, 0, false⟩).y ∧
      (Disk.integrateDisk 1000 1000 0 ⟨500, 990, 500, 990, 0, 0, false⟩).y ≤ 1000 - Disk.radius :=
  c2_containment_integrateDisk 1000 1000 0 ⟨500, 990, 500, 990, 0, 0, false⟩
    (by norm_num [Disk.radius]) (by norm_num [Disk.radius])
